import Mathlib

/-!
Verification of the logo resolution engine of the `logo` repository
(Cloudflare Worker, TypeScript): cache-key derivation (`src/lib/storage/r2.ts`,
`src/lib/storage/kv.ts`), cache staleness and invalidation
(`src/lib/storage/cache.ts`), the result-ranking comparator and provider
failover (`src/lib/providers/index.ts`), the rate limiter
(`src/lib/middleware/api-key-validation.ts`), the company-name-to-domain
resolver (`src/lib/search/domain-finder.ts`), and the orchestrating
`fetchLogo` service (`src/lib/logo-service.ts`).

JavaScript strings are modelled as Lean `String`; the sources only ever
manipulate ASCII here, where JS `toLowerCase` agrees with `Char.toLower`
mapped over the characters.  JS `undefined` for optional values is modelled
as `Option`, with explicit JS truthiness tests (`""` and `0` are falsy).
External I/O (the KV namespace, the R2 bucket, outbound HTTP) is modelled as
explicit state passing: stores are finite maps `String → Option _`, and
network responses are inputs to the functions under verification.
-/

namespace Logo

/-- JS `String.prototype.includes(pat)`: `pat` occurs as a contiguous
substring of `s`. -/
def jsIncludes (s pat : String) : Bool := decide (pat.toList <:+: s.toList)

/-- JS `String.prototype.endsWith(pat)`. -/
def jsEndsWith (s pat : String) : Bool := pat.toList.isSuffixOf s.toList

/-- JS `String.prototype.toLowerCase()` on ASCII strings. -/
def lowerStr (s : String) : String := ⟨s.data.map Char.toLower⟩

/-- JS truthiness of an optional string (`undefined` and `""` are falsy). -/
def jsTruthyS : Option String → Bool
  | none => false
  | some s => s ≠ ""

/-- JS truthiness of an optional number (`undefined` and `0` are falsy). -/
def jsTruthyN : Option Nat → Bool
  | none => false
  | some n => n ≠ 0

/-- `url.replace(/^https?:\/\//, '')` on the character list: the regex is
anchored, so it strips exactly one leading `https://` or `http://`. -/
def stripProtocol (l : List Char) : List Char :=
  if "https://".data.isPrefixOf l then l.drop 8
  else if "http://".data.isPrefixOf l then l.drop 7
  else l

/-- `.replace(/^www\./, '')`: strips exactly one leading `www.`. -/
def stripWww (l : List Char) : List Char :=
  if "www.".data.isPrefixOf l then l.drop 4
  else l

/-- `domain.replace(/^https?:\/\//, '').replace(/^www\./, '').toLowerCase()`,
the domain normalization shared by `generateLogoKey`, `generateMetadataKey`
and `generateKVMetadataKey`. -/
def cleanDomainStr (s : String) : String :=
  ⟨(stripWww (stripProtocol s.data)).map Char.toLower⟩

/-- One step of `companyName.replace(/\s+/g, '-')`: a run of whitespace
becomes a single `-`.  The flag records whether the previous character was
whitespace (i.e. we are inside a run that already emitted its dash). -/
def squashWsAux : Bool → List Char → List Char
  | _, [] => []
  | prevWs, c :: rest =>
    if c.isWhitespace then
      if prevWs then squashWsAux true rest
      else '-' :: squashWsAux true rest
    else c :: squashWsAux false rest

/-- `companyName.toLowerCase().replace(/\s+/g, '-')`, the company-name
normalization of the key-derivation functions. -/
def cleanNameStr (s : String) : String :=
  ⟨squashWsAux false (s.data.map Char.toLower)⟩

/-- `size ? "_" + size : ""`: the optional size suffix (note `0` is falsy). -/
def sizeSuffix : Option Nat → String
  | none => ""
  | some n => if n ≠ 0 then "_" ++ toString n else ""

/-- `generateLogoKey(domain?, companyName?, format = 'png', size?)` from
`src/lib/storage/r2.ts`.  `none` models the `throw` when neither identity is
supplied (both `undefined`/empty, JS truthiness). -/
def generateLogoKey (domain companyName : Option String)
    (format : Option String := some "png") (size : Option Nat := none) :
    Option String :=
  let fmt := format.getD "png"
  if jsTruthyS domain then
    some ("logos/" ++ cleanDomainStr (domain.getD "") ++ sizeSuffix size ++ "." ++ fmt)
  else if jsTruthyS companyName then
    some ("logos/name/" ++ cleanNameStr (companyName.getD "") ++ sizeSuffix size ++ "." ++ fmt)
  else none

/-- `generateMetadataKey(domain?, companyName?)` from `src/lib/storage/r2.ts`. -/
def generateMetadataKey (domain companyName : Option String) : Option String :=
  if jsTruthyS domain then
    some ("metadata/" ++ cleanDomainStr (domain.getD "") ++ ".json")
  else if jsTruthyS companyName then
    some ("metadata/name/" ++ cleanNameStr (companyName.getD "") ++ ".json")
  else none

/-- `generateKVMetadataKey(domain?, companyName?, format = 'png', size?)`
from `src/lib/storage/kv.ts`. -/
def generateKVMetadataKey (domain companyName : Option String)
    (format : Option String := some "png") (size : Option Nat := none) :
    Option String :=
  let fmt := format.getD "png"
  if jsTruthyS domain then
    some ("logo:" ++ cleanDomainStr (domain.getD "") ++ ":" ++ fmt ++ sizeSuffix size)
  else if jsTruthyS companyName then
    some ("logo:name:" ++ cleanNameStr (companyName.getD "") ++ ":" ++ fmt ++ sizeSuffix size)
  else none

end Logo

namespace Logo

/-! ### Supporting lemmas for the key-derivation normalization -/

theorem isPrefixOf_map_toLower {pat l : List Char} (hp : pat.map Char.toLower = pat)
    (h : pat.isPrefixOf l = true) : pat.isPrefixOf (l.map Char.toLower) = true := by
  rw [List.isPrefixOf_iff_prefix] at h ⊢
  have h2 := h.map Char.toLower
  rwa [hp] at h2

theorem stripProtocol_append_https (l : List Char) :
    stripProtocol ("https://".data ++ l) = l := by
  simp [stripProtocol, List.isPrefixOf]

theorem stripProtocol_append_http (l : List Char) :
    stripProtocol ("http://".data ++ l) = l := by
  simp [stripProtocol, List.isPrefixOf]

theorem stripProtocol_append_www (l : List Char) :
    stripProtocol ("www.".data ++ l) = "www.".data ++ l := by
  simp [stripProtocol, List.isPrefixOf]

theorem stripWww_append (l : List Char) : stripWww ("www.".data ++ l) = l := by
  simp [stripWww, List.isPrefixOf]

theorem stripProtocol_of_lower_free {l : List Char}
    (h1 : "https://".data.isPrefixOf (l.map Char.toLower) = false)
    (h2 : "http://".data.isPrefixOf (l.map Char.toLower) = false) :
    stripProtocol l = l := by
  have hA : "https://".data.isPrefixOf l = false := by
    cases hh : "https://".data.isPrefixOf l
    · rfl
    · have := isPrefixOf_map_toLower (by decide) hh
      rw [h1] at this
      exact absurd this (by decide)
  have hB : "http://".data.isPrefixOf l = false := by
    cases hh : "http://".data.isPrefixOf l
    · rfl
    · have := isPrefixOf_map_toLower (by decide) hh
      rw [h2] at this
      exact absurd this (by decide)
  simp [stripProtocol, hA, hB]

theorem stripWww_of_lower_free {l : List Char}
    (h3 : "www.".data.isPrefixOf (l.map Char.toLower) = false) :
    stripWww l = l := by
  have hA : "www.".data.isPrefixOf l = false := by
    cases hh : "www.".data.isPrefixOf l
    · rfl
    · have := isPrefixOf_map_toLower (by decide) hh
      rw [h3] at this
      exact absurd this (by decide)
  simp [stripWww, hA]

theorem data_ne_nil_of_ne_empty {d : String} (hd : d ≠ "") : d.data ≠ [] := by
  intro h
  apply hd
  cases d
  simp_all

/-- The three spellings of the protocol part accepted by the claim. -/
def protocolSpelling : Fin 3 → String
  | 0 => ""
  | 1 => "http://"
  | 2 => "https://"

/-- The two spellings of the `www.` part accepted by the claim. -/
def wwwSpelling : Fin 2 → String
  | 0 => ""
  | 1 => "www."

theorem stripProtocol_cons_http (l : List Char) :
    stripProtocol ('h' :: 't' :: 't' :: 'p' :: ':' :: '/' :: '/' :: l) = l := by
  simp [stripProtocol, List.isPrefixOf]

theorem stripProtocol_cons_https (l : List Char) :
    stripProtocol ('h' :: 't' :: 't' :: 'p' :: 's' :: ':' :: '/' :: '/' :: l) = l := by
  simp [stripProtocol, List.isPrefixOf]

theorem stripProtocol_cons_www (l : List Char) :
    stripProtocol ('w' :: 'w' :: 'w' :: '.' :: l) = 'w' :: 'w' :: 'w' :: '.' :: l := by
  simp [stripProtocol, List.isPrefixOf]

theorem stripWww_cons (l : List Char) :
    stripWww ('w' :: 'w' :: 'w' :: '.' :: l) = l := by
  simp [stripWww, List.isPrefixOf]

theorem cleanDomainStr_spelling (p : Fin 3) (w : Fin 2) (d : String)
    (h1 : "https://".data.isPrefixOf (d.data.map Char.toLower) = false)
    (h2 : "http://".data.isPrefixOf (d.data.map Char.toLower) = false)
    (h3 : "www.".data.isPrefixOf (d.data.map Char.toLower) = false) :
    cleanDomainStr (protocolSpelling p ++ wwwSpelling w ++ d) = lowerStr d := by
  have hP : stripProtocol d.data = d.data := stripProtocol_of_lower_free h1 h2
  have hW : stripWww d.data = d.data := stripWww_of_lower_free h3
  apply String.ext
  fin_cases p <;> fin_cases w <;>
    simp [cleanDomainStr, lowerStr, protocolSpelling, wwwSpelling, String.data_append,
      stripProtocol_cons_http, stripProtocol_cons_https, stripProtocol_cons_www,
      stripWww_cons, hP, hW]

end Logo

namespace Logo

theorem jsTruthyS_of_data_ne_nil {s : String} (hs : s.data ≠ []) :
    jsTruthyS (some s) = true := by
  simp only [jsTruthyS, decide_eq_true_eq]
  intro h
  apply hs
  rw [h]

/-- C4, counterexample.  The claim asserts key derivation is invariant under
*any* change of letter casing together with an optional `www.` prefix; but the
anchored regexes `/^https?:\/\//` and `/^www\./` run *before* `toLowerCase`,
so a capitalized prefix such as `Www.` is not stripped: `Www.example.com` and
`www.example.com` derive different blob keys and different fast-tier metadata
keys. -/
theorem generateKeys_casing_counterexample :
    generateLogoKey (some "Www.example.com") none (some "png") none
      ≠ generateLogoKey (some "www.example.com") none (some "png") none ∧
    generateKVMetadataKey (some "Www.example.com") none (some "png") none
      ≠ generateKVMetadataKey (some "www.example.com") none (some "png") none := by
  constructor <;> decide

/-- C4 (amended): the blob key (`generateLogoKey`) and the fast-tier metadata
key (`generateKVMetadataKey`) are identical for all spellings of the same
logical domain obtained by adding or removing a *lowercase* `http://` or
`https://` prefix, adding or removing a *lowercase* leading `www.`, and any
change of letter casing of the remaining domain; a prefix containing an
uppercase letter is not stripped (see the counterexample). -/
theorem generateKeys_normalization_invariant
    (p₁ p₂ : Fin 3) (w₁ w₂ : Fin 2) (d₁ d₂ : String)
    (format : Option String) (size : Option Nat)
    (hne : d₁ ≠ "")
    (hlow : lowerStr d₁ = lowerStr d₂)
    (h1 : "https://".data.isPrefixOf (d₁.data.map Char.toLower) = false)
    (h2 : "http://".data.isPrefixOf (d₁.data.map Char.toLower) = false)
    (h3 : "www.".data.isPrefixOf (d₁.data.map Char.toLower) = false) :
    generateLogoKey (some (protocolSpelling p₁ ++ wwwSpelling w₁ ++ d₁)) none format size
      = generateLogoKey (some (protocolSpelling p₂ ++ wwwSpelling w₂ ++ d₂)) none format size ∧
    generateKVMetadataKey (some (protocolSpelling p₁ ++ wwwSpelling w₁ ++ d₁)) none format size
      = generateKVMetadataKey (some (protocolSpelling p₂ ++ wwwSpelling w₂ ++ d₂)) none format size := by
  have hd : d₁.data.map Char.toLower = d₂.data.map Char.toLower := congrArg String.data hlow
  have h1' : "https://".data.isPrefixOf (d₂.data.map Char.toLower) = false := hd ▸ h1
  have h2' : "http://".data.isPrefixOf (d₂.data.map Char.toLower) = false := hd ▸ h2
  have h3' : "www.".data.isPrefixOf (d₂.data.map Char.toLower) = false := hd ▸ h3
  have e1 := cleanDomainStr_spelling p₁ w₁ d₁ h1 h2 h3
  have e2 := cleanDomainStr_spelling p₂ w₂ d₂ h1' h2' h3'
  have hne1 : d₁.data ≠ [] := data_ne_nil_of_ne_empty hne
  have hne2 : d₂.data ≠ [] := by
    intro h
    apply hne1
    have := hd
    rw [h] at this
    simpa using this
  have ht1 : jsTruthyS (some (protocolSpelling p₁ ++ wwwSpelling w₁ ++ d₁)) = true := by
    apply jsTruthyS_of_data_ne_nil
    simp [String.data_append, hne1]
  have ht2 : jsTruthyS (some (protocolSpelling p₂ ++ wwwSpelling w₂ ++ d₂)) = true := by
    apply jsTruthyS_of_data_ne_nil
    simp [String.data_append, hne2]
  constructor <;>
    simp [generateLogoKey, generateKVMetadataKey, ht1, ht2, e1, e2, hlow]

/-- Witness for the amended C4 theorem at a concrete input:
`https://www.Example.COM` and `example.com` derive identical keys. -/
theorem generateKeys_normalization_invariant_witness :
    generateLogoKey (some (protocolSpelling 2 ++ wwwSpelling 1 ++ "Example.COM")) none
        (some "png") (some 64)
      = generateLogoKey (some (protocolSpelling 0 ++ wwwSpelling 0 ++ "example.com")) none
        (some "png") (some 64) ∧
    generateKVMetadataKey (some (protocolSpelling 2 ++ wwwSpelling 1 ++ "Example.COM")) none
        (some "png") (some 64)
      = generateKVMetadataKey (some (protocolSpelling 0 ++ wwwSpelling 0 ++ "example.com")) none
        (some "png") (some 64) :=
  generateKeys_normalization_invariant 2 0 1 0 "Example.COM" "example.com"
    (some "png") (some 64) (by decide) (by decide) (by decide) (by decide) (by decide)

end Logo

namespace Logo

/-! ### Result ranking (`fetchLogoWithFailover` in `src/lib/providers/index.ts`) -/

/-- `EnhancedLogoResult`: one provider attempt outcome, enriched with the
fetched bytes (when the byte fetch succeeded), their size, and the elapsed
time.  Bytes are modelled as lists of numbers. -/
structure EnhancedLogoResult where
  success : Bool
  provider : String
  logoUrl : Option String := none
  error : Option String := none
  duration : Option Nat := none
  logoData : Option (List Nat) := none
  fileSize : Option Nat := none
  width : Option Nat := none
  height : Option Nat := none
deriving DecidableEq

/-- The provider-priority table of the ranking comparator:
`wikipedia → 4, wikimedia → 3, google-favicon → 1, anything else → 2`. -/
def getProviderPriority (r : EnhancedLogoResult) : Nat :=
  if r.provider = "wikipedia" then 4
  else if r.provider = "wikimedia" then 3
  else if r.provider = "google-favicon" then 1
  else 2

/-- `getFormat`: the format inferred from the candidate source URL
(`result.logoUrl || ''`), exactly as in the comparator. -/
def getFormat (r : EnhancedLogoResult) : String :=
  let url := r.logoUrl.getD ""
  if jsIncludes url ".svg" || jsIncludes (lowerStr url) "svg" then "svg"
  else if jsIncludes url ".png" || jsIncludes (lowerStr url) "png" then "png"
  else if jsIncludes url ".jpg" || jsIncludes url ".jpeg" || jsIncludes (lowerStr url) "jpeg" then "jpg"
  else "unknown"

/-- The format-priority table `svg 3, png 2, jpg 1, unknown 0` (with the
`|| 0` fallback of the object lookup for any other string). -/
def formatPriority : String → Nat
  | "svg" => 3
  | "png" => 2
  | "jpg" => 1
  | _ => 0

/-- The four-level ranking comparator passed to `successfulResults.sort`:
provider priority, then inferred format, then byte size (only when both
sides carry a truthy `fileSize`), then latency; `0` otherwise.  A negative
value ranks `a` before `b`. -/
def compareCands (a b : EnhancedLogoResult) : Int :=
  if getProviderPriority a ≠ getProviderPriority b then
    (getProviderPriority b : Int) - (getProviderPriority a : Int)
  else if formatPriority (getFormat a) ≠ formatPriority (getFormat b) then
    (formatPriority (getFormat b) : Int) - (formatPriority (getFormat a) : Int)
  else if jsTruthyN a.fileSize && jsTruthyN b.fileSize then
    (b.fileSize.getD 0 : Int) - (a.fileSize.getD 0 : Int)
  else if jsTruthyN a.duration && jsTruthyN b.duration then
    (a.duration.getD 0 : Int) - (b.duration.getD 0 : Int)
  else 0

/-- Stable insertion into a list sorted by `compareCands`: the inserted
element comes from *earlier* in the input, so it stays in front of elements
it ties with, exactly as the (spec-mandated stable) JS `Array.prototype.sort`
keeps tied elements in input order. -/
def insertCand (x : EnhancedLogoResult) : List EnhancedLogoResult → List EnhancedLogoResult
  | [] => [x]
  | y :: ys => if compareCands x y ≤ 0 then x :: y :: ys else y :: insertCand x ys

/-- Stable sort of the successful candidates by the ranking comparator. -/
def sortCands : List EnhancedLogoResult → List EnhancedLogoResult
  | [] => []
  | x :: xs => insertCand x (sortCands xs)

/-- `successfulResults.sort(...); return successfulResults[0]`: the selected
best candidate (`none` for an empty list). -/
def selectBestResult (l : List EnhancedLogoResult) : Option EnhancedLogoResult :=
  (sortCands l).head?

end Logo

namespace Logo

/-- C2: the ranking comparator decides by provider tier first (wikipedia 4,
wikimedia 3, default middle tier 2, google-favicon 1 — unlisted providers get
the middle tier), then by the format inferred from the source URL
(svg 3, png 2, jpg 1, unknown 0), then by byte size (larger wins, only when
both candidates carry a truthy fetched size), then by latency (lower wins).
In each clause a negative comparator value ranks the left candidate first.
The witness shows the "in particular" part: a wikipedia candidate precedes a
google-favicon candidate of much larger byte size. -/
theorem compareCands_four_level_order :
    (∀ r : EnhancedLogoResult,
      (r.provider = "wikipedia" → getProviderPriority r = 4) ∧
      (r.provider = "wikimedia" → getProviderPriority r = 3) ∧
      (r.provider = "google-favicon" → getProviderPriority r = 1) ∧
      (r.provider ≠ "wikipedia" → r.provider ≠ "wikimedia" →
        r.provider ≠ "google-favicon" → getProviderPriority r = 2)) ∧
    (formatPriority "svg" = 3 ∧ formatPriority "png" = 2 ∧
      formatPriority "jpg" = 1 ∧ formatPriority "unknown" = 0) ∧
    (∀ a b : EnhancedLogoResult, getProviderPriority a ≠ getProviderPriority b →
      compareCands a b = (getProviderPriority b : Int) - getProviderPriority a) ∧
    (∀ a b : EnhancedLogoResult, getProviderPriority a = getProviderPriority b →
      formatPriority (getFormat a) ≠ formatPriority (getFormat b) →
      compareCands a b
        = (formatPriority (getFormat b) : Int) - formatPriority (getFormat a)) ∧
    (∀ a b : EnhancedLogoResult, getProviderPriority a = getProviderPriority b →
      formatPriority (getFormat a) = formatPriority (getFormat b) →
      jsTruthyN a.fileSize = true → jsTruthyN b.fileSize = true →
      compareCands a b = (b.fileSize.getD 0 : Int) - a.fileSize.getD 0) ∧
    (∀ a b : EnhancedLogoResult, getProviderPriority a = getProviderPriority b →
      formatPriority (getFormat a) = formatPriority (getFormat b) →
      (jsTruthyN a.fileSize && jsTruthyN b.fileSize) = false →
      jsTruthyN a.duration = true → jsTruthyN b.duration = true →
      compareCands a b = (a.duration.getD 0 : Int) - b.duration.getD 0) := by
  refine ⟨?_, ⟨rfl, rfl, rfl, rfl⟩, ?_, ?_, ?_, ?_⟩
  · intro r
    refine ⟨fun h => ?_, fun h => ?_, fun h => ?_, fun h1 h2 h3 => ?_⟩
    · simp [getProviderPriority, h]
    · simp [getProviderPriority, h]
    · simp [getProviderPriority, h]
    · simp [getProviderPriority, h1, h2, h3]
  · intro a b h
    simp [compareCands, h]
  · intro a b h1 h2
    simp [compareCands, h1, h2]
  · intro a b h1 h2 h3 h4
    simp [compareCands, h1, h2, h3, h4]
  · intro a b h1 h2 h3 h4 h5
    simp [compareCands, h1, h2, h3, h4, h5]

/-- A successful wikipedia candidate with a small (10-byte) logo. -/
def wikiSmall : EnhancedLogoResult :=
  { success := true, provider := "wikipedia",
    logoUrl := some "https://upload.example.org/acme-logo.svg",
    duration := some 200, logoData := some [1], fileSize := some 10 }

/-- A successful google-favicon candidate with a much larger (50000-byte)
logo. -/
def faviconBig : EnhancedLogoResult :=
  { success := true, provider := "google-favicon",
    logoUrl := some "https://www.google.example/s2/favicons?domain=acme.com",
    duration := some 30, logoData := some [2], fileSize := some 50000 }

/-- Witness for C2 at a concrete input: the wikipedia candidate ranks before
(`compareCands < 0`) the google-favicon candidate despite the latter having a
5000x larger byte size. -/
theorem compareCands_four_level_order_witness :
    compareCands wikiSmall faviconBig < 0 := by
  have h := compareCands_four_level_order.2.2.1 wikiSmall faviconBig (by decide)
  rw [h]
  decide

theorem compareCands_antisymm (a b : EnhancedLogoResult) :
    compareCands b a = -compareCands a b := by
  unfold compareCands
  by_cases h1 : getProviderPriority a = getProviderPriority b
  · by_cases h2 : formatPriority (getFormat a) = formatPriority (getFormat b)
    · by_cases h3 : (jsTruthyN a.fileSize && jsTruthyN b.fileSize) = true
      · have h3' : (jsTruthyN b.fileSize && jsTruthyN a.fileSize) = true := by
          rwa [Bool.and_comm]
        simp [h1, h2, h3, h3']
      · have h3' : (jsTruthyN b.fileSize && jsTruthyN a.fileSize) = false := by
          rw [Bool.and_comm]; simpa using h3
        by_cases h4 : (jsTruthyN a.duration && jsTruthyN b.duration) = true
        · have h4' : (jsTruthyN b.duration && jsTruthyN a.duration) = true := by
            rwa [Bool.and_comm]
          simp [h1, h2, h3, h3', h4, h4']
        · have h4' : (jsTruthyN b.duration && jsTruthyN a.duration) = false := by
            rw [Bool.and_comm]; simpa using h4
          simp [h1, h2, h3, h3', h4, h4']
    · have h2' : formatPriority (getFormat b) ≠ formatPriority (getFormat a) :=
        fun h => h2 h.symm
      simp [h1, h2, h2']
  · have h1' : getProviderPriority b ≠ getProviderPriority a := fun h => h1 h.symm
    simp [h1, h1']

theorem selectBestResult_pair (a b : EnhancedLogoResult) :
    selectBestResult [a, b] = if compareCands a b ≤ 0 then some a else some b := by
  by_cases h : compareCands a b ≤ 0 <;>
    simp [selectBestResult, sortCands, insertCand, h]

end Logo

namespace Logo

/-- A middle-tier candidate carrying neither bytes nor a duration. -/
def tieA : EnhancedLogoResult :=
  { success := true, provider := "getlogo.dev",
    logoUrl := some "https://one.example/logo-first" }

/-- A second, distinct middle-tier candidate the comparator ties with
`tieA`: same provider tier, same (unknown) inferred format, no fetched bytes,
no duration. -/
def tieB : EnhancedLogoResult :=
  { success := true, provider := "logo.dev",
    logoUrl := some "https://two.example/logo-second" }

/-- C3, counterexample.  Selection is NOT invariant under permutation of the
candidate list: `tieA` and `tieB` are distinct candidates the comparator ties
(`0`), so the stable sort keeps input order and the selected head follows the
input ordering. -/
theorem selectBestResult_order_dependent_counterexample :
    compareCands tieA tieB = 0 ∧
    selectBestResult [tieA, tieB] = some tieA ∧
    selectBestResult [tieB, tieA] = some tieB ∧
    tieA ≠ tieB := by
  refine ⟨by decide, by decide, by decide, by decide⟩

/-- C3 (amended): for a pair of candidates the comparator strictly orders
(nonzero value), the selected candidate is invariant under swapping the input
order.  Permutation invariance fails in general: when the comparator ties two
distinct candidates (same provider tier, same inferred format, and byte size /
latency unavailable or equal), the spec-stable JS sort keeps input order and
the earlier candidate wins (see the counterexample). -/
theorem selectBestResult_swap_invariant (a b : EnhancedLogoResult)
    (h : compareCands a b ≠ 0) :
    selectBestResult [a, b] = selectBestResult [b, a] := by
  have hanti := compareCands_antisymm a b
  rw [selectBestResult_pair, selectBestResult_pair]
  rcases lt_or_gt_of_ne h with hlt | hgt
  · rw [if_pos (le_of_lt hlt), if_neg (by omega)]
  · rw [if_neg (by omega), if_pos (by omega)]

/-- Witness for the amended C3 theorem at a concrete input: the comparator
strictly orders `wikiSmall` and `faviconBig`, and both input orders select
the same candidate. -/
theorem selectBestResult_swap_invariant_witness :
    selectBestResult [wikiSmall, faviconBig] = selectBestResult [faviconBig, wikiSmall] :=
  selectBestResult_swap_invariant wikiSmall faviconBig (by decide)

end Logo

namespace Logo

/-! ### Rate limiter (`checkRateLimit` in `src/lib/middleware/api-key-validation.ts`) -/

/-- Rate limit configuration (`maxRequests` per `windowSeconds` window). -/
structure RateLimitConfig where
  maxRequests : Nat
  windowSeconds : Nat
deriving DecidableEq

/-- The result of one `checkRateLimit` call.  `remaining` and `resetAt` are
absent on the fail-open path (the code returns `\x7b allowed: true \x7d`
only). -/
structure RateLimitResult where
  allowed : Bool
  remaining : Option Nat := none
  resetAt : Option Nat := none
deriving DecidableEq

/-- The statistics KV namespace as seen by the rate limiter: a map from keys
to stored counters, plus fault flags modelling a throwing `get`/`put`.
The source stores `newCount.toString()` and reads back with
`parseInt(x || '0', 10)`; since only decimal counter strings are ever
written, the value is modelled as the counter itself. -/
structure RateLimitStore where
  data : String → Option Nat
  getFails : Bool := false
  putFails : Bool := false

/-- `ratelimit:<apiKey>:<windowStart>`. -/
def rateLimitKey (apiKey : String) (windowStart : Nat) : String :=
  "ratelimit:" ++ apiKey ++ ":" ++ toString windowStart

/-- `checkRateLimit(apiKey, statsKV, config)` at time `now` (epoch seconds,
`Math.floor(Date.now() / 1000)`).  The whole body runs in a `try`; a
throwing `get` or `put` is caught and the request is allowed (fail-open).
The `put` uses a TTL of one window length; expiry of idle windows is outside
a single call and not modelled here. -/
def checkRateLimit (apiKey : String) (st : RateLimitStore)
    (config : RateLimitConfig) (now : Nat) : RateLimitResult × RateLimitStore :=
  if st.getFails then ({ allowed := true }, st)
  else
    let windowStart := now / config.windowSeconds * config.windowSeconds
    let key := rateLimitKey apiKey windowStart
    let count := (st.data key).getD 0
    if count ≥ config.maxRequests then
      ({ allowed := false, remaining := some 0,
         resetAt := some (windowStart + config.windowSeconds) }, st)
    else if st.putFails then ({ allowed := true }, st)
    else
      let newCount := count + 1
      ({ allowed := true, remaining := some (config.maxRequests - newCount),
         resetAt := some (windowStart + config.windowSeconds) },
       { st with data := fun k => if k = key then some newCount else st.data k })

/-- Sequential `checkRateLimit` calls at the given times, threading the
store. -/
def runRateLimitChecks (apiKey : String) (config : RateLimitConfig) :
    List Nat → RateLimitStore → List RateLimitResult × RateLimitStore
  | [], st => ([], st)
  | t :: ts, st =>
    let (r, st') := checkRateLimit apiKey st config t
    let (rs, st'') := runRateLimitChecks apiKey config ts st'
    (r :: rs, st'')

end Logo

namespace Logo

/-- C6: with quota 5 and a 60-second window, five sequential checks for the
same key inside one window (all six times fall in window `w`) return
`allowed = true` with `remaining` 4, 3, 2, 1, 0, and the sixth returns
`allowed = false` with `remaining = 0` and
`resetAt = windowStart + windowLength` where
`windowStart = (now / 60) * 60 = w * 60`. -/
theorem checkRateLimit_five_then_reject
    (apiKey : String) (w t1 t2 t3 t4 t5 t6 : Nat) (st : RateLimitStore)
    (hg : st.getFails = false) (hp : st.putFails = false)
    (h1 : t1 / 60 = w) (h2 : t2 / 60 = w) (h3 : t3 / 60 = w)
    (h4 : t4 / 60 = w) (h5 : t5 / 60 = w) (h6 : t6 / 60 = w)
    (h0 : st.data (rateLimitKey apiKey (w * 60)) = none) :
    (runRateLimitChecks apiKey ⟨5, 60⟩ [t1, t2, t3, t4, t5, t6] st).1
      = [⟨true, some 4, some (w * 60 + 60)⟩, ⟨true, some 3, some (w * 60 + 60)⟩,
         ⟨true, some 2, some (w * 60 + 60)⟩, ⟨true, some 1, some (w * 60 + 60)⟩,
         ⟨true, some 0, some (w * 60 + 60)⟩, ⟨false, some 0, some (w * 60 + 60)⟩] := by
  simp [runRateLimitChecks, checkRateLimit, hg, hp, h1, h2, h3, h4, h5, h6, h0]

end Logo

namespace Logo

/-- Witness for C6 at a concrete input: key `"k"`, all six calls at time 0,
empty store. -/
theorem checkRateLimit_five_then_reject_witness :
    (runRateLimitChecks "k" ⟨5, 60⟩ [0, 0, 0, 0, 0, 0] ⟨fun _ => none, false, false⟩).1
      = [⟨true, some 4, some 60⟩, ⟨true, some 3, some 60⟩,
         ⟨true, some 2, some 60⟩, ⟨true, some 1, some 60⟩,
         ⟨true, some 0, some 60⟩, ⟨false, some 0, some 60⟩] :=
  checkRateLimit_five_then_reject "k" 0 0 0 0 0 0 0 ⟨fun _ => none, false, false⟩
    rfl rfl rfl rfl rfl rfl rfl rfl rfl

/-- C7: whenever the backing store raises during the rate-limit read
(`getFails`), or the read succeeds with a count below quota and the counter
increment raises (`putFails`), the check returns `allowed = true`.  The error
is never propagated: the whole body is wrapped in `try`/`catch` and
`checkRateLimit` is a total function into `RateLimitResult`. -/
theorem checkRateLimit_fail_open
    (apiKey : String) (st : RateLimitStore) (config : RateLimitConfig) (now : Nat)
    (h : st.getFails = true ∨
      (st.getFails = false ∧
        (st.data (rateLimitKey apiKey
            (now / config.windowSeconds * config.windowSeconds))).getD 0
          < config.maxRequests ∧
        st.putFails = true)) :
    (checkRateLimit apiKey st config now).1.allowed = true := by
  rcases h with hg | ⟨hg, hlt, hp⟩
  · simp [checkRateLimit, hg]
  · have hnot : ¬ ((st.data (rateLimitKey apiKey
        (now / config.windowSeconds * config.windowSeconds))).getD 0
          ≥ config.maxRequests) := by omega
    simp [checkRateLimit, hg, hp, hnot]

/-- Witness for C7 at a concrete input: a store whose read throws. -/
theorem checkRateLimit_fail_open_witness :
    (checkRateLimit "k" ⟨fun _ => none, true, false⟩ ⟨5, 60⟩ 0).1.allowed = true :=
  checkRateLimit_fail_open "k" ⟨fun _ => none, true, false⟩ ⟨5, 60⟩ 0 (Or.inl rfl)

end Logo

namespace Logo

/-! ### Domain resolver (`src/lib/search/domain-finder.ts`).

The search strategies perform HTTP requests and parse the responses with
JS `URL` and regexes; those external effects are inputs here: the raw search
results are lists of URL strings, and `new URL(u).hostname`, the fallback
domain regex, the `uddg=` redirect-parameter regex and `decodeURIComponent`
are oracle functions (with `none` modelling a throw / no match).  The
filtering logic applied to them — which is what the claim is about — is
translated exactly. -/

/-- The oracles standing for the JS URL/regex/decode primitives. -/
structure SearchOracles where
  hostname : String → Option String
  domainMatch : String → Option String
  uddgParam : String → Option String
  decodeURI : String → Option String

/-- The `unwantedPatterns` array of `shouldFilterDomain`. -/
def unwantedPatterns : List String :=
  ["duckduckgo.com", "wikipedia.org", "wiki", "youtube",
   "facebook", "twitter", "instagram", "linkedin"]

/-- `shouldFilterDomain(domain)`: government domains (`.gov` anywhere or at
the end) and the unwanted-pattern list, all checked on the lowercased
domain. -/
def shouldFilterDomain (domain : String) : Bool :=
  let domainLower := lowerStr domain
  if jsIncludes domainLower ".gov" || jsEndsWith domainLower ".gov" then true
  else unwantedPatterns.any (fun pat => jsIncludes domainLower pat)

/-- The second half of `extractDomain(url)`: `new URL(url).hostname`
(oracle), the at-least-one-dot check and the disallow-list check; on a
throwing `URL` constructor, the manual regex fallback (oracle) with its own
`www.` strip and the same two checks. -/
def extractDomainChecks (o : SearchOracles) (u : String) : Option String :=
  match o.hostname u with
  | some domain =>
    if domain = "" || !(jsIncludes domain ".") then none
    else if shouldFilterDomain domain then none
    else some domain
  | none =>
    match o.domainMatch u with
    | some captured =>
      if jsIncludes ⟨stripWww captured.data⟩ "."
          && !(shouldFilterDomain ⟨stripWww captured.data⟩) then
        some ⟨stripWww captured.data⟩
      else none
    | none => none

/-- `extractDomain(url)`: the protocol fixups of the `try` body (prepend
`https:` to protocol-relative URLs, prepend `https://` to bare inputs,
reject unknown protocols) followed by `extractDomainChecks`. -/
def extractDomain (o : SearchOracles) (url0 : String) : Option String :=
  let url1 := if "//".data.isPrefixOf url0.data then "https:" ++ url0 else url0
  let url2opt :=
    if !("http://".data.isPrefixOf url1.data) && !("https://".data.isPrefixOf url1.data) then
      if jsIncludes url1 "." && !(jsIncludes url1 "/") then some ("https://" ++ url1)
      else if jsIncludes url1 "://" then none
      else some ("https://" ++ url1)
    else some url1
  match url2opt with
  | none => none
  | some u => extractDomainChecks o u

/-- The acceptance test of the Instant-Answer branches of
`findDomainViaDuckDuckGo`: extract, then skip duckduckgo/wikipedia/wiki
domains. -/
def ddgApiAccept (o : SearchOracles) (u : String) : Option String :=
  match extractDomain o u with
  | some d =>
    if !(jsIncludes d "duckduckgo.com") && !(jsIncludes d "wikipedia.org")
        && !(jsIncludes d "wiki") then some d
    else none
  | none => none

/-- The `for`-loops over `data.Results` / `data.RelatedTopics` (their
`FirstURL` fields; `""` models a falsy/missing `FirstURL`, which is
skipped). -/
def ddgApiScanList (o : SearchOracles) : List String → Option String
  | [] => none
  | u :: rest =>
    if u ≠ "" then
      match ddgApiAccept o u with
      | some d => some d
      | none => ddgApiScanList o rest
    else ddgApiScanList o rest

/-- The `isFiltered` test of the HTML-fallback loop. -/
def ddgHtmlFiltered (d : String) : Bool :=
  jsIncludes d "wikipedia.org" || jsIncludes d "wiki" || jsIncludes d "youtube" ||
  jsIncludes d "facebook" || jsIncludes d "twitter" || jsIncludes d "instagram" ||
  jsIncludes d "linkedin"

/-- The loop of `findDomainViaDuckDuckGoHtml` over the matched `href`
attributes: skip internal links, decode `uddg=` redirect targets (a throwing
`decodeURIComponent` aborts into the outer catch, which returns null), skip
ad links and duckduckgo redirects, extract the domain, and return the first
domain that passes the filters. -/
def ddgHtmlLoop (o : SearchOracles) : List String → Option String
  | [] => none
  | href :: rest =>
    if "/?".data.isPrefixOf href.data || "#".data.isPrefixOf href.data then
      ddgHtmlLoop o rest
    else if jsIncludes href "/l/?uddg=" || jsIncludes href "uddg=" then
      match o.uddgParam href with
      | some enc =>
        match o.decodeURI enc with
        | none => none
        | some decoded =>
          if jsIncludes decoded "y.js" || jsIncludes decoded "/y.js" then
            ddgHtmlLoop o rest
          else if jsIncludes decoded "duckduckgo.com" then ddgHtmlLoop o rest
          else
            match extractDomain o decoded with
            | some domain =>
              if jsIncludes domain "duckduckgo.com" || domain = "duckduckgo.com" then
                ddgHtmlLoop o rest
              else if ddgHtmlFiltered domain then ddgHtmlLoop o rest
              else some domain
            | none => ddgHtmlLoop o rest
      | none => ddgHtmlLoop o rest
    else if jsIncludes href "duckduckgo.com" then ddgHtmlLoop o rest
    else
      match extractDomain o href with
      | some domain =>
        if jsIncludes domain "duckduckgo.com" || domain = "duckduckgo.com" then
          ddgHtmlLoop o rest
        else if ddgHtmlFiltered domain then ddgHtmlLoop o rest
        else some domain
      | none => ddgHtmlLoop o rest

/-- `findDomainViaDuckDuckGoHtml`: a non-ok HTML response yields null. -/
def findDomainViaDuckDuckGoHtml (o : SearchOracles) (htmlOk : Bool)
    (hrefs : List String) : Option String :=
  if htmlOk then ddgHtmlLoop o hrefs else none

/-- One DuckDuckGo search outcome: the Instant-Answer API response and the
HTML-fallback response. -/
structure DdgSearchData where
  ok : Bool
  abstractURL : Option String
  results : List String
  relatedTopics : List String
  htmlOk : Bool
  htmlHrefs : List String

/-- The `data.AbstractURL` branch of `findDomainViaDuckDuckGo` (the truthy
check on `AbstractURL`, then extraction and the duckduckgo/wiki skips). -/
def ddgAbstractStage (o : SearchOracles) (data : DdgSearchData) : Option String :=
  match data.abstractURL with
  | some au => if au ≠ "" then ddgApiAccept o au else none
  | none => none

/-- `findDomainViaDuckDuckGo`: AbstractURL, then Results, then
RelatedTopics, then the HTML fallback (also used when the API response is
not ok). -/
def findDomainViaDuckDuckGo (o : SearchOracles) (data : DdgSearchData) : Option String :=
  if !data.ok then findDomainViaDuckDuckGoHtml o data.htmlOk data.htmlHrefs
  else
    match ddgAbstractStage o data with
    | some dd => some dd
    | none =>
      match ddgApiScanList o data.results with
      | some dd => some dd
      | none =>
        match ddgApiScanList o data.relatedTopics with
        | some dd => some dd
        | none => findDomainViaDuckDuckGoHtml o data.htmlOk data.htmlHrefs

/-- `findDomainFromCompanyName`: the resolver chain of the current
`domain-finder.ts` tries the DuckDuckGo strategy (Instant-Answer API with
HTML fallback) and returns its result.  The company name only forms the
search query, which the oracles and `DdgSearchData` abstract over. -/
def findDomainFromCompanyName (o : SearchOracles) (d : DdgSearchData) : Option String :=
  findDomainViaDuckDuckGo o d

end Logo

namespace Logo

theorem extractDomainChecks_valid {o : SearchOracles} {u d : String}
    (h : extractDomainChecks o u = some d) :
    jsIncludes d "." = true ∧ shouldFilterDomain d = false := by
  unfold extractDomainChecks at h
  split at h
  · split at h
    · exact absurd h (by simp)
    · split at h
      · exact absurd h (by simp)
      · rename_i hdot hfilt
        cases h
        constructor
        · simp only [Bool.or_eq_true, Bool.not_eq_true', decide_eq_true_eq] at hdot
          push_neg at hdot
          rcases hdot with ⟨-, h2⟩
          cases hb : jsIncludes _ "."
          · exact absurd hb h2
          · rfl
        · simpa using hfilt
  · split at h
    · split at h
      · rename_i hcond
        cases h
        simp only [Bool.and_eq_true, Bool.not_eq_true'] at hcond
        exact ⟨hcond.1, hcond.2⟩
      · exact absurd h (by simp)
    · exact absurd h (by simp)

theorem extractDomain_valid {o : SearchOracles} {url d : String}
    (h : extractDomain o url = some d) :
    jsIncludes d "." = true ∧ shouldFilterDomain d = false := by
  simp only [extractDomain] at h
  split at h
  · exact absurd h (by simp)
  · exact extractDomainChecks_valid h

end Logo

namespace Logo

theorem ddgApiAccept_valid {o : SearchOracles} {u d : String}
    (h : ddgApiAccept o u = some d) :
    jsIncludes d "." = true ∧ shouldFilterDomain d = false := by
  unfold ddgApiAccept at h
  split at h
  · rename_i d' heq
    split at h
    · cases h
      exact extractDomain_valid heq
    · exact absurd h (by simp)
  · exact absurd h (by simp)

theorem ddgApiScanList_valid {o : SearchOracles} :
    ∀ {l : List String} {d : String}, ddgApiScanList o l = some d →
      jsIncludes d "." = true ∧ shouldFilterDomain d = false := by
  intro l
  induction l with
  | nil => intro d h; simp [ddgApiScanList] at h
  | cons u rest ih =>
    intro d h
    unfold ddgApiScanList at h
    split at h
    · split at h
      · rename_i d' heq
        cases h
        exact ddgApiAccept_valid heq
      · exact ih h
    · exact ih h

theorem ddgHtmlLoop_valid {o : SearchOracles} :
    ∀ {l : List String} {d : String}, ddgHtmlLoop o l = some d →
      jsIncludes d "." = true ∧ shouldFilterDomain d = false := by
  intro l
  induction l with
  | nil => intro d h; simp [ddgHtmlLoop] at h
  | cons href rest ih =>
    intro d h
    unfold ddgHtmlLoop at h
    repeat' split at h
    all_goals
      first
        | exact ih h
        | (cases h; exact extractDomain_valid (by assumption))
        | (cases h)

theorem ddgAbstractStage_valid {o : SearchOracles} {data : DdgSearchData}
    {d : String} (h : ddgAbstractStage o data = some d) :
    jsIncludes d "." = true ∧ shouldFilterDomain d = false := by
  unfold ddgAbstractStage at h
  repeat' split at h
  all_goals
    first
      | exact ddgApiAccept_valid h
      | (cases h)

theorem findDomainViaDuckDuckGoHtml_valid {o : SearchOracles} {htmlOk : Bool}
    {hrefs : List String} {d : String}
    (h : findDomainViaDuckDuckGoHtml o htmlOk hrefs = some d) :
    jsIncludes d "." = true ∧ shouldFilterDomain d = false := by
  unfold findDomainViaDuckDuckGoHtml at h
  split at h
  · exact ddgHtmlLoop_valid h
  · exact absurd h (by simp)

theorem findDomainViaDuckDuckGo_valid {o : SearchOracles} {data : DdgSearchData}
    {d : String} (h : findDomainViaDuckDuckGo o data = some d) :
    jsIncludes d "." = true ∧ shouldFilterDomain d = false := by
  unfold findDomainViaDuckDuckGo at h
  repeat' split at h
  all_goals
    first
      | exact findDomainViaDuckDuckGoHtml_valid h
      | (cases h; exact ddgAbstractStage_valid (by assumption))
      | (cases h; exact ddgApiScanList_valid (by assumption))

end Logo

namespace Logo

/-- C9: whatever the company name and whatever the raw search results (here:
arbitrary oracle answers and result lists), the domain resolver returns
either nothing or a domain that contains at least one dot and matches no
disallow-list pattern of `shouldFilterDomain` — the search engine's own
domain, wiki/encyclopedia, government, youtube, facebook, twitter,
instagram, linkedin — because every returned value passed through
`extractDomain`, which enforces both checks on every path.  The witness runs
the chain on raw results whose *first* entry is a disallowed domain. -/
theorem findDomainFromCompanyName_no_disallowed
    (o : SearchOracles) (data : DdgSearchData) (d : String)
    (h : findDomainFromCompanyName o data = some d) :
    jsIncludes d "." = true ∧ shouldFilterDomain d = false :=
  findDomainViaDuckDuckGo_valid h

/-- Concrete URL oracles for the C9 witness: `new URL(u).hostname` for the
two URLs that occur. -/
def c9Oracles : SearchOracles :=
  { hostname := fun u =>
      if u = "https://facebook.com/acme" then some "facebook.com"
      else if u = "https://acme.com" then some "acme.com"
      else none
    domainMatch := fun _ => none
    uddgParam := fun _ => none
    decodeURI := fun s => some s }

/-- Concrete search outcome for the C9 witness: the AbstractURL — the first
raw result — is a disallowed facebook URL; the real site appears in
`Results`. -/
def c9Data : DdgSearchData :=
  { ok := true
    abstractURL := some "https://facebook.com/acme"
    results := ["https://acme.com"]
    relatedTopics := []
    htmlOk := false
    htmlHrefs := [] }

/-- Witness for C9 at a concrete input: with a disallowed domain first among
the raw results, the resolver skips it and the returned domain `acme.com`
has a dot and is not disallowed. -/
theorem findDomainFromCompanyName_no_disallowed_witness :
    jsIncludes "acme.com" "." = true ∧ shouldFilterDomain "acme.com" = false :=
  findDomainFromCompanyName_no_disallowed c9Oracles c9Data "acme.com" (by decide)

end Logo

namespace Logo

/-! ### Tiered cache storage and the `fetchLogo` service
(`src/lib/storage/r2.ts`, `src/lib/storage/kv.ts`, `src/lib/storage/cache.ts`,
`src/lib/logo-service.ts`).

The R2 bucket and the KV namespace are maps from keys to stored values.
Timestamps (`retrievedAt`, `Date` arithmetic) are epoch seconds; `now - retrievedAt`
on `Nat` truncates a negative JS difference to `0`, which like JS compares
`≤ maxAge` (not stale).  Write faults (a throwing `put`) are injected
explicitly; every `try`/`catch` of the source catches them into a `false`
return, as modelled. -/

/-- Logo bytes. -/
abbrev Bytes := List Nat

/-- `LogoMetadata` from `src/lib/storage/r2.ts` (`retrievedAt` as epoch
seconds instead of an ISO string). -/
structure LogoMetadata where
  provider : String
  retrievedAt : Nat
  responseTime : Option Nat := none
  originalUrl : String
  domain : Option String := none
  companyName : Option String := none
  size : Option Nat := none
  format : Option String := none
  width : Option Nat := none
  height : Option Nat := none
  fileSize : Option Nat := none
deriving DecidableEq

/-- An object stored in the R2 bucket: a logo blob or a metadata JSON
sidecar. -/
inductive R2Value where
  | blob (data : Bytes)
  | meta (m : LogoMetadata)
deriving DecidableEq

abbrev R2Map := String → Option R2Value

/-- The KV namespace holding metadata JSON (stored with `JSON.stringify`,
read back with `JSON.parse`; modelled as the record itself). -/
abbrev KVMap := String → Option LogoMetadata

/-- Store update. -/
def mapPut {V : Type} (m : String → Option V) (k : String) (v : V) :
    String → Option V :=
  fun q => if q = k then some v else m q

/-- Store deletion. -/
def mapDel {V : Type} (m : String → Option V) (k : String) :
    String → Option V :=
  fun q => if q = k then none else m q

/-- `isMetadataStale(metadata, maxAge = 2592000)` from
`src/lib/storage/cache.ts`: age in seconds strictly above `maxAge`. -/
def isMetadataStale (m : LogoMetadata) (now : Nat) (maxAge : Nat := 2592000) :
    Bool :=
  now - m.retrievedAt > maxAge

/-- `getMetadataFromKV`: derive the key (a throwing derivation is caught to
`null`) and read. -/
def getMetadataFromKV (kv : KVMap) (domain companyName : Option String)
    (format : Option String) (size : Option Nat) : Option LogoMetadata :=
  match generateKVMetadataKey domain companyName format size with
  | some key => kv key
  | none => none

/-- `getMetadataFromR2`: read the sidecar object; a blob under the metadata
key would make `JSON.parse` throw, which the `catch` turns into `null`. -/
def getMetadataFromR2 (r2 : R2Map) (domain companyName : Option String) :
    Option LogoMetadata :=
  match generateMetadataKey domain companyName with
  | some key =>
    match r2 key with
    | some (R2Value.meta m) => some m
    | _ => none
  | none => none

/-- `getLogoFromR2`: read the blob under the derived logo key (`null` when
absent; a metadata object under a logo key is not modelled as bytes — the
theorems below only visit states whose logo keys hold blobs). -/
def getLogoFromR2 (r2 : R2Map) (domain companyName : Option String)
    (format : Option String) (size : Option Nat) : Option Bytes :=
  match generateLogoKey domain companyName format size with
  | some key =>
    match r2 key with
    | some (R2Value.blob b) => some b
    | _ => none
  | none => none

/-- Injected write faults: a `true` flag makes the corresponding `put`
throw. -/
structure StoreFaults where
  r2BlobPutFails : Bool := false
  r2MetaPutFails : Bool := false
  kvPutFails : Bool := false
deriving DecidableEq

/-- `storeLogoInR2(r2Bucket, logo, metadata)`: derive both keys (a throwing
derivation is caught to `false`), put the blob first, then the metadata JSON
sidecar; any throw is caught and returns `false`, keeping whatever was
already written. -/
def storeLogoInR2 (f : StoreFaults) (r2 : R2Map) (logo : Bytes)
    (m : LogoMetadata) : Bool × R2Map :=
  match generateLogoKey m.domain m.companyName m.format m.size,
      generateMetadataKey m.domain m.companyName with
  | some logoKey, some metadataKey =>
    if f.r2BlobPutFails then (false, r2)
    else
      let r2₁ := mapPut r2 logoKey (R2Value.blob logo)
      if f.r2MetaPutFails then (false, r2₁)
      else (true, mapPut r2₁ metadataKey (R2Value.meta m))
  | _, _ => (false, r2)

/-- `storeMetadataInKV(kvNamespace, metadata)` (1-year TTL not modelled
within a single call). -/
def storeMetadataInKV (f : StoreFaults) (kv : KVMap) (m : LogoMetadata) :
    Bool × KVMap :=
  match generateKVMetadataKey m.domain m.companyName m.format m.size with
  | some key => if f.kvPutFails then (false, kv) else (true, mapPut kv key m)
  | none => (false, kv)

/-- `invalidateLogoCache(r2Bucket, kvNamespace, domain, companyName, format,
size)` from `src/lib/storage/cache.ts`.  Note the source derives the R2 logo
key *without* the size argument. -/
def invalidateLogoCache (r2 : R2Map) (kv : KVMap)
    (domain companyName : Option String) (format : Option String)
    (size : Option Nat) : Bool × R2Map × KVMap :=
  match generateLogoKey domain companyName format none,
      generateMetadataKey domain companyName with
  | some logoKey, some metadataKey =>
    let r2' := mapDel (mapDel r2 logoKey) metadataKey
    let kv' :=
      match generateKVMetadataKey domain companyName format size with
      | some key => mapDel kv key
      | none => kv
    (true, r2', kv')
  | _, _ => (false, r2, kv)

/-- `invalidateStaleLogo(r2Bucket, kvNamespace, metadata, options)`:
invalidate when forced or stale. -/
def invalidateStaleLogo (r2 : R2Map) (kv : KVMap) (m : LogoMetadata)
    (now maxAge : Nat) (force : Bool := false) : Bool × R2Map × KVMap :=
  if force || isMetadataStale m now maxAge then
    invalidateLogoCache r2 kv m.domain m.companyName m.format m.size
  else (false, r2, kv)

end Logo

namespace Logo

/-- The slice of `FetchLogoOptions` the logo service acts on.  `hasR2` /
`hasKV` model whether the optional `r2Bucket` / `kvNamespace` bindings were
supplied. -/
structure FetchLogoOptions where
  useCache : Bool := true
  hasR2 : Bool := true
  hasKV : Bool := true
  maxCacheAge : Nat := 2592000
  domain : Option String := none
  companyName : Option String := none
  format : String := "png"
  size : Option Nat := none
deriving DecidableEq

/-- `FetchLogoResult` (the Cloudflare-Images URL is not modelled: that
feature only adds the optional `cloudflareImagesUrl` field and changes
nothing else). -/
structure FetchLogoResult where
  success : Bool
  logo : Option Bytes := none
  logoUrl : Option String := none
  metadata : Option LogoMetadata := none
  error : Option String := none
  fromCache : Option Bool := none
deriving DecidableEq

/-- The two cache tiers. -/
structure CacheState where
  r2 : R2Map
  kv : KVMap

/-- The calls `fetchLogo` makes to its collaborators:
`failover d` is `fetchLogoWithFailover` invoked with domain argument `d`
(company name, format and the remaining options are fixed by the request);
`findDomain` is `findDomainFromCompanyName`. -/
structure ProviderOracle where
  failover : Option String → EnhancedLogoResult
  findDomain : String → Option String

/-- The cache-lookup phase of `fetchLogo`: KV metadata first, then the R2
metadata sidecar; a fresh hit returns the cached blob, a stale hit
invalidates both tiers (only when a KV namespace is bound) and falls
through, a metadata miss still tries a direct R2 blob lookup.  Returns
`some result` on an early cache return and `none` on a miss, plus the
(possibly invalidated) stores. -/
def fetchLogoCachePhase (opts : FetchLogoOptions) (now : Nat) (s : CacheState) :
    Option FetchLogoResult × CacheState :=
  if opts.useCache && opts.hasR2 then
    let mKV :=
      if opts.hasKV then
        getMetadataFromKV s.kv opts.domain opts.companyName (some opts.format) opts.size
      else none
    let mFinal :=
      match mKV with
      | some m => some m
      | none => getMetadataFromR2 s.r2 opts.domain opts.companyName
    match mFinal with
    | some m =>
      if !(isMetadataStale m now opts.maxCacheAge) then
        match getLogoFromR2 s.r2 opts.domain opts.companyName (some opts.format) opts.size with
        | some bytes =>
          (some { success := true, logo := some bytes, metadata := some m,
                  fromCache := some true }, s)
        | none => (none, s)
      else
        if opts.hasKV then
          let inv := invalidateStaleLogo s.r2 s.kv m now opts.maxCacheAge
          (none, ⟨inv.2.1, inv.2.2⟩)
        else (none, s)
    | none =>
      match getLogoFromR2 s.r2 opts.domain opts.companyName (some opts.format) opts.size with
      | some bytes =>
        (some { success := true, logo := some bytes, fromCache := some true }, s)
      | none => (none, s)
  else (none, s)

/-- The provider phase of `fetchLogo`: one failover pass; if it failed, no
domain was given and a company name is present, resolve a domain and — when
one was found — retry the failover pass once with the found domain.  The
original `domain` option is *not* updated. -/
def fetchLogoProviderPhase (o : ProviderOracle) (opts : FetchLogoOptions) :
    EnhancedLogoResult :=
  let result := o.failover opts.domain
  if !result.success && !(jsTruthyS opts.domain) && jsTruthyS opts.companyName then
    match o.findDomain (opts.companyName.getD "") with
    | some foundDomain =>
      if foundDomain ≠ "" then o.failover (some foundDomain) else result
    | none => result
  else result

/-- The store phase of `fetchLogo`: on a failed provider result return the
error; otherwise build the metadata record from the *original* request
identity (`opts.domain` / `opts.companyName`), store blob + sidecar in R2,
on success also store the metadata in KV, and return.  A failed R2 store
falls back to returning only the logo URL. -/
def fetchLogoStorePhase (f : StoreFaults) (opts : FetchLogoOptions)
    (result : EnhancedLogoResult) (now : Nat) (s : CacheState) :
    FetchLogoResult × CacheState :=
  if !result.success || !(jsTruthyS result.logoUrl) then
    ({ success := false,
       error := some (result.error.getD "Failed to fetch logo from all providers") }, s)
  else
    match result.logoData with
    | some bytes =>
      if opts.hasR2 then
        let m : LogoMetadata :=
          { provider := result.provider
            retrievedAt := now
            responseTime := result.duration
            originalUrl := result.logoUrl.getD ""
            domain := opts.domain
            companyName := opts.companyName
            size := if jsTruthyN opts.size then opts.size else none
            format := some opts.format
            width := result.width
            height := result.height
            fileSize := result.fileSize }
        let stored := storeLogoInR2 f s.r2 bytes m
        let kv' :=
          if stored.1 && opts.hasKV then (storeMetadataInKV f s.kv m).2 else s.kv
        if stored.1 then
          ({ success := true, logo := some bytes, logoUrl := result.logoUrl,
             metadata := some m, fromCache := some false }, ⟨stored.2, kv'⟩)
        else
          ({ success := true, logoUrl := result.logoUrl, fromCache := some false },
           ⟨stored.2, kv'⟩)
      else ({ success := true, logoUrl := result.logoUrl, fromCache := some false }, s)
    | none => ({ success := true, logoUrl := result.logoUrl, fromCache := some false }, s)

/-- `fetchLogo(options)`: cache phase, then providers with the
domain-resolution retry, then storage. -/
def fetchLogo (o : ProviderOracle) (f : StoreFaults) (opts : FetchLogoOptions)
    (now : Nat) (s : CacheState) : FetchLogoResult × CacheState :=
  match fetchLogoCachePhase opts now s with
  | (some r, s') => (r, s')
  | (none, s') => fetchLogoStorePhase f opts (fetchLogoProviderPhase o opts) now s'

end Logo

namespace Logo

theorem mapDel_self {V : Type} (m : String → Option V) (k : String) :
    mapDel m k k = none := by
  simp [mapDel]

theorem mapPut_self {V : Type} (m : String → Option V) (k : String) (v : V) :
    mapPut m k v k = some v := by
  simp [mapPut]

theorem generateMetadataKey_truthiness {d c : Option String} {k : String}
    (h : generateMetadataKey d c = some k) :
    jsTruthyS d = true ∨ (jsTruthyS d = false ∧ jsTruthyS c = true) := by
  by_cases h1 : jsTruthyS d = true
  · exact Or.inl h1
  · right
    refine ⟨by simpa using h1, ?_⟩
    by_cases h2 : jsTruthyS c = true
    · exact h2
    · exfalso
      simp only [generateMetadataKey] at h
      rw [if_neg h1, if_neg h2] at h
      exact Option.noConfusion h

theorem generateLogoKey_some_of_truthy (f : Option String) (sz : Option Nat)
    {d c : Option String}
    (h : jsTruthyS d = true ∨ (jsTruthyS d = false ∧ jsTruthyS c = true)) :
    ∃ lk, generateLogoKey d c f sz = some lk := by
  simp only [generateLogoKey]
  rcases h with h | ⟨h1, h2⟩
  · exact ⟨_, by rw [if_pos h]⟩
  · exact ⟨_, by rw [if_neg (by simp [h1]), if_pos h2]⟩

/-- C10: when neither tier holds a metadata record but the durable tier
holds a blob under the derived logo key, `fetchLogo` returns that blob with
`success = true` and `fromCache = true`, no metadata in the result, the
stores untouched, and — since there is no `retrievedAt` to inspect — the
very same result at *every* time `now`, i.e. with no staleness check. -/
theorem fetchLogo_metadataless_blob_hit
    (o : ProviderOracle) (f : StoreFaults) (opts : FetchLogoOptions)
    (s : CacheState) (now : Nat) (bytes : Bytes)
    (hc : opts.useCache = true) (hr : opts.hasR2 = true)
    (hkv : getMetadataFromKV s.kv opts.domain opts.companyName
        (some opts.format) opts.size = none)
    (hr2m : getMetadataFromR2 s.r2 opts.domain opts.companyName = none)
    (hblob : getLogoFromR2 s.r2 opts.domain opts.companyName
        (some opts.format) opts.size = some bytes) :
    fetchLogo o f opts now s
      = ({ success := true, logo := some bytes, fromCache := some true }, s) := by
  cases hK : opts.hasKV <;>
    simp [fetchLogo, fetchLogoCachePhase, hc, hr, hK, hkv, hr2m, hblob]

/-- Witness for C10 at a concrete input: an R2 bucket holding only the blob
`[7]` under `logos/acme.com.png`, no metadata anywhere, arbitrary time 0. -/
theorem fetchLogo_metadataless_blob_hit_witness :
    fetchLogo ⟨fun _ => ⟨false, "all", none, none, none, none, none, none, none⟩,
        fun _ => none⟩ ⟨false, false, false⟩
      ⟨true, true, true, 2592000, some "acme.com", none, "png", none⟩ 0
      ⟨fun k => if k = "logos/acme.com.png" then some (R2Value.blob [7]) else none,
       fun _ => none⟩
      = ({ success := true, logo := some [7], fromCache := some true },
         ⟨fun k => if k = "logos/acme.com.png" then some (R2Value.blob [7]) else none,
          fun _ => none⟩) :=
  fetchLogo_metadataless_blob_hit _ _ _ _ 0 [7] rfl rfl (by decide) (by decide) (by decide)

end Logo

namespace Logo

/-- C5: a cache lookup that finds a metadata record (in either tier, both
tiers being configured) whose age exceeds `maxCacheAge` reports a miss — the
cache phase returns no early result, so `fetchLogo` proceeds to the provider
fetch — and the stale metadata record is deleted from both the fast tier
(the KV key) and the durable tier (the R2 sidecar key), so neither tier
still contains it afterward.  The identity hypotheses say the record is
stored under the keys derived from its own fields, as `storeLogoInR2` /
`storeMetadataInKV` always store it. -/
theorem fetchLogoCachePhase_stale_is_miss_and_invalidated
    (opts : FetchLogoOptions) (now : Nat) (s : CacheState) (m : LogoMetadata)
    (kvKey metaKey : String)
    (hc : opts.useCache = true) (hr : opts.hasR2 = true) (hK : opts.hasKV = true)
    (hkey : generateKVMetadataKey opts.domain opts.companyName
        (some opts.format) opts.size = some kvKey)
    (hmkey : generateMetadataKey opts.domain opts.companyName = some metaKey)
    (hfound : s.kv kvKey = some m ∨
      (s.kv kvKey = none ∧ s.r2 metaKey = some (R2Value.meta m)))
    (hstale : isMetadataStale m now opts.maxCacheAge = true)
    (hdom : m.domain = opts.domain) (hcn : m.companyName = opts.companyName)
    (hfmt : m.format = some opts.format) (hsz : m.size = opts.size) :
    (fetchLogoCachePhase opts now s).1 = none ∧
    (fetchLogoCachePhase opts now s).2.kv kvKey = none ∧
    (fetchLogoCachePhase opts now s).2.r2 metaKey = none := by
  obtain ⟨lk, hlk⟩ := generateLogoKey_some_of_truthy (some opts.format) none
    (generateMetadataKey_truthiness hmkey)
  rcases hfound with h1 | ⟨h1, h2⟩
  · simp [fetchLogoCachePhase, hc, hr, hK, getMetadataFromKV, hkey, h1, hstale,
      invalidateStaleLogo, invalidateLogoCache, hdom, hcn, hfmt, hsz, hlk, hmkey,
      mapDel]
  · simp [fetchLogoCachePhase, hc, hr, hK, getMetadataFromKV, getMetadataFromR2,
      hkey, h1, h2, hmkey, hstale, invalidateStaleLogo, invalidateLogoCache,
      hdom, hcn, hfmt, hsz, hlk, mapDel]

/-- Witness for C5 at a concrete input: a record for `acme.com` retrieved at
time 0, looked up at time 2592001 with the default 30-day `maxCacheAge`,
present in both tiers. -/
theorem fetchLogoCachePhase_stale_is_miss_and_invalidated_witness :
    (fetchLogoCachePhase ⟨true, true, true, 2592000, some "acme.com", none, "png", none⟩
        2592001
        ⟨fun k => if k = "metadata/acme.com.json" then
            some (R2Value.meta ⟨"getlogo.dev", 0, none, "https://x/y.png",
              some "acme.com", none, none, some "png", none, none, none⟩)
          else if k = "logos/acme.com.png" then some (R2Value.blob [7]) else none,
         fun k => if k = "logo:acme.com:png" then
            some ⟨"getlogo.dev", 0, none, "https://x/y.png",
              some "acme.com", none, none, some "png", none, none, none⟩
          else none⟩).1 = none ∧
    (fetchLogoCachePhase ⟨true, true, true, 2592000, some "acme.com", none, "png", none⟩
        2592001
        ⟨fun k => if k = "metadata/acme.com.json" then
            some (R2Value.meta ⟨"getlogo.dev", 0, none, "https://x/y.png",
              some "acme.com", none, none, some "png", none, none, none⟩)
          else if k = "logos/acme.com.png" then some (R2Value.blob [7]) else none,
         fun k => if k = "logo:acme.com:png" then
            some ⟨"getlogo.dev", 0, none, "https://x/y.png",
              some "acme.com", none, none, some "png", none, none, none⟩
          else none⟩).2.kv "logo:acme.com:png" = none ∧
    (fetchLogoCachePhase ⟨true, true, true, 2592000, some "acme.com", none, "png", none⟩
        2592001
        ⟨fun k => if k = "metadata/acme.com.json" then
            some (R2Value.meta ⟨"getlogo.dev", 0, none, "https://x/y.png",
              some "acme.com", none, none, some "png", none, none, none⟩)
          else if k = "logos/acme.com.png" then some (R2Value.blob [7]) else none,
         fun k => if k = "logo:acme.com:png" then
            some ⟨"getlogo.dev", 0, none, "https://x/y.png",
              some "acme.com", none, none, some "png", none, none, none⟩
          else none⟩).2.r2 "metadata/acme.com.json" = none :=
  fetchLogoCachePhase_stale_is_miss_and_invalidated _ 2592001 _
    ⟨"getlogo.dev", 0, none, "https://x/y.png",
      some "acme.com", none, none, some "png", none, none, none⟩
    "logo:acme.com:png" "metadata/acme.com.json"
    rfl rfl rfl (by decide) (by decide) (Or.inl (by decide)) (by decide)
    rfl rfl rfl rfl

end Logo

namespace Logo

/-- The provider failover outcome used by the C1 scenario: every pass
without a domain fails; every pass with a domain succeeds with a 3-byte PNG
from wikipedia. -/
def c1Failover : Option String → EnhancedLogoResult
  | some _ =>
    { success := true, provider := "wikipedia",
      logoUrl := some "https://img.example/acme.png",
      duration := some 120, logoData := some [1, 2, 3], fileSize := some 3 }
  | none =>
    { success := false, provider := "all",
      error := some "All providers failed: getlogo.dev: 404" }

/-- The collaborators of the C1 scenario: the resolver finds `acme.com`. -/
def c1Oracle : ProviderOracle :=
  { failover := c1Failover, findDomain := fun _ => some "acme.com" }

/-- The request of the C1 scenario: company name only, no domain. -/
def c1Opts : FetchLogoOptions :=
  { useCache := false, hasR2 := true, hasKV := true,
    domain := none, companyName := some "Acme Corp", format := "png", size := none }

/-- C1, counterexample.  In the company-name-only scenario — first provider
pass fails, the resolver returns `acme.com`, the retried pass succeeds with
bytes — the stored metadata records `domain = none` and the *original
company name*, not the resolved domain: the blob lands under the name-derived
key `logos/name/acme-corp.png`, and nothing is stored under the
domain-derived key `logos/acme.com.png`.  The resolved domain is used only
for the retried provider call. -/
theorem fetchLogo_resolved_domain_not_recorded_counterexample :
    c1Oracle.findDomain "Acme Corp" = some "acme.com" ∧
    (c1Oracle.failover none).success = false ∧
    (c1Oracle.failover (some "acme.com")).success = true ∧
    (fetchLogo c1Oracle ⟨false, false, false⟩ c1Opts 1000
        ⟨fun _ => none, fun _ => none⟩).1.metadata.map LogoMetadata.domain
      = some none ∧
    (fetchLogo c1Oracle ⟨false, false, false⟩ c1Opts 1000
        ⟨fun _ => none, fun _ => none⟩).1.metadata.map LogoMetadata.companyName
      = some (some "Acme Corp") ∧
    (fetchLogo c1Oracle ⟨false, false, false⟩ c1Opts 1000
        ⟨fun _ => none, fun _ => none⟩).2.r2 "logos/name/acme-corp.png"
      = some (R2Value.blob [1, 2, 3]) ∧
    (fetchLogo c1Oracle ⟨false, false, false⟩ c1Opts 1000
        ⟨fun _ => none, fun _ => none⟩).2.r2 "logos/acme.com.png" = none := by
  refine ⟨rfl, rfl, rfl, by decide, by decide, by decide, by decide⟩

end Logo

namespace Logo

theorem generateMetadataKey_some_of_truthy {d c : Option String}
    (h : jsTruthyS d = true ∨ (jsTruthyS d = false ∧ jsTruthyS c = true)) :
    ∃ mk, generateMetadataKey d c = some mk := by
  simp only [generateMetadataKey]
  rcases h with h | ⟨h1, h2⟩
  · exact ⟨_, by rw [if_pos h]⟩
  · exact ⟨_, by rw [if_neg (by simp [h1]), if_pos h2]⟩

theorem generateKeys_ne {d c : Option String} {f : Option String}
    {sz : Option Nat} {lk mk : String}
    (hlk : generateLogoKey d c f sz = some lk)
    (hmk : generateMetadataKey d c = some mk) : lk ≠ mk := by
  simp only [generateLogoKey] at hlk
  simp only [generateMetadataKey] at hmk
  by_cases h1 : jsTruthyS d = true
  · rw [if_pos h1] at hlk hmk
    cases hlk
    cases hmk
    intro h
    have h2 := congrArg String.data h
    simp [String.data_append] at h2
  · rw [if_neg h1] at hlk hmk
    by_cases h2 : jsTruthyS c = true
    · rw [if_pos h2] at hlk hmk
      cases hlk
      cases hmk
      intro h
      have h3 := congrArg String.data h
      simp [String.data_append] at h3
    · rw [if_neg h2] at hlk
      exact Option.noConfusion hlk

/-- C1 (amended): in the company-name-only scenario with a failing first
pass, a resolved domain and a successful retried pass, the persisted
metadata records the *original* identity — `domain = none` and the company
name — and the blob is stored under the name-derived key; the resolved
domain is only passed to the retried provider call and is not recorded as
the cache-key basis. -/
theorem fetchLogo_retry_records_original_name
    (o : ProviderOracle) (f : StoreFaults) (opts : FetchLogoOptions)
    (now : Nat) (s : CacheState) (n dfound : String) (bytes : Bytes)
    (hdom : opts.domain = none) (hcn : opts.companyName = some n) (hn : n ≠ "")
    (hfail : (o.failover none).success = false)
    (hfind : o.findDomain n = some dfound) (hdf : dfound ≠ "")
    (hsucc : (o.failover (some dfound)).success = true)
    (hurl : jsTruthyS (o.failover (some dfound)).logoUrl = true)
    (hdata : (o.failover (some dfound)).logoData = some bytes)
    (hr : opts.hasR2 = true)
    (hbf : f.r2BlobPutFails = false) (hmf : f.r2MetaPutFails = false) :
    ∃ m lk,
      (fetchLogoStorePhase f opts (fetchLogoProviderPhase o opts) now s).1.metadata
        = some m ∧
      m.domain = none ∧ m.companyName = some n ∧
      generateLogoKey none (some n) (some opts.format)
        (if jsTruthyN opts.size then opts.size else none) = some lk ∧
      (fetchLogoStorePhase f opts (fetchLogoProviderPhase o opts) now s).2.r2 lk
        = some (R2Value.blob bytes) := by
  have hres : fetchLogoProviderPhase o opts = o.failover (some dfound) := by
    simp [fetchLogoProviderPhase, hdom, hcn, hfail, hfind, hdf, jsTruthyS, hn]
  have htr : jsTruthyS (some n) = true := by simp [jsTruthyS, hn]
  obtain ⟨lk, hlk⟩ := generateLogoKey_some_of_truthy (some opts.format)
    (if jsTruthyN opts.size then opts.size else none)
    (d := none) (c := some n) (Or.inr ⟨rfl, htr⟩)
  obtain ⟨mk, hmk⟩ := generateMetadataKey_some_of_truthy
    (d := none) (c := some n) (Or.inr ⟨rfl, htr⟩)
  have hne : lk ≠ mk := generateKeys_ne hlk hmk
  refine ⟨{ provider := (o.failover (some dfound)).provider, retrievedAt := now,
            responseTime := (o.failover (some dfound)).duration,
            originalUrl := (o.failover (some dfound)).logoUrl.getD "",
            domain := none, companyName := some n,
            size := if jsTruthyN opts.size then opts.size else none,
            format := some opts.format,
            width := (o.failover (some dfound)).width,
            height := (o.failover (some dfound)).height,
            fileSize := (o.failover (some dfound)).fileSize },
         lk, ?_, rfl, rfl, hlk, ?_⟩ <;>
    simp [fetchLogoStorePhase, hres, hsucc, hurl, hdata, hr, hdom, hcn,
      storeLogoInR2, hlk, hmk, hbf, hmf, mapPut, hne]

/-- Witness for the amended C1 theorem at the concrete scenario of the
counterexample: the recorded identity is `Acme Corp`, `domain = none`. -/
theorem fetchLogo_retry_records_original_name_witness :
    ∃ m lk,
      (fetchLogoStorePhase ⟨false, false, false⟩ c1Opts
          (fetchLogoProviderPhase c1Oracle c1Opts) 1000
          ⟨fun _ => none, fun _ => none⟩).1.metadata = some m ∧
      m.domain = none ∧ m.companyName = some "Acme Corp" ∧
      generateLogoKey none (some "Acme Corp") (some c1Opts.format)
        (if jsTruthyN c1Opts.size then c1Opts.size else none) = some lk ∧
      (fetchLogoStorePhase ⟨false, false, false⟩ c1Opts
          (fetchLogoProviderPhase c1Oracle c1Opts) 1000
          ⟨fun _ => none, fun _ => none⟩).2.r2 lk = some (R2Value.blob [1, 2, 3]) :=
  fetchLogo_retry_records_original_name c1Oracle ⟨false, false, false⟩ c1Opts 1000
    ⟨fun _ => none, fun _ => none⟩ "Acme Corp" "acme.com" [1, 2, 3]
    rfl rfl (by decide) rfl rfl (by decide) rfl (by decide) rfl rfl rfl rfl

end Logo

namespace Logo

theorem storeLogoInR2_blobFault (f : StoreFaults) (r2 : R2Map) (logo : Bytes)
    (m : LogoMetadata) (hb : f.r2BlobPutFails = true) :
    storeLogoInR2 f r2 logo m = (false, r2) := by
  unfold storeLogoInR2
  split
  · rw [if_pos hb]
  · rfl

/-- C8: write ordering and fault tolerance of the store path.
(1) A failing durable-tier blob write aborts the whole store: nothing is
written and `storeLogoInR2` reports failure.
(2) A reported success means both the blob and the sidecar are present under
their derived keys — metadata in the durable tier never points at a blob
that was not stored.
(3) When the blob write succeeds but the sidecar write fails, the store
reports failure with exactly the blob written — the blob write strictly
precedes any metadata write.
(4) In `fetchLogo`'s store step a failing blob write leaves both tiers
untouched (in particular, no fast-tier metadata is written).
(5) When only the fast-tier metadata write fails, the store still counts as
a success: the result carries `success = true`, `fromCache = false` and the
metadata, the durable tier holds the blob, and the fast tier is simply left
unchanged. -/
theorem storeLogo_ordering_and_fault_tolerance :
    (∀ (f : StoreFaults) (r2 : R2Map) (logo : Bytes) (m : LogoMetadata),
      f.r2BlobPutFails = true → storeLogoInR2 f r2 logo m = (false, r2)) ∧
    (∀ (f : StoreFaults) (r2 : R2Map) (logo : Bytes) (m : LogoMetadata),
      (storeLogoInR2 f r2 logo m).1 = true →
      ∃ lk mk, generateLogoKey m.domain m.companyName m.format m.size = some lk ∧
        generateMetadataKey m.domain m.companyName = some mk ∧
        (storeLogoInR2 f r2 logo m).2 lk = some (R2Value.blob logo) ∧
        (storeLogoInR2 f r2 logo m).2 mk = some (R2Value.meta m)) ∧
    (∀ (f : StoreFaults) (r2 : R2Map) (logo : Bytes) (m : LogoMetadata)
      (lk : String),
      f.r2BlobPutFails = false → f.r2MetaPutFails = true →
      generateLogoKey m.domain m.companyName m.format m.size = some lk →
      (∃ mk, generateMetadataKey m.domain m.companyName = some mk) →
      storeLogoInR2 f r2 logo m = (false, mapPut r2 lk (R2Value.blob logo))) ∧
    (∀ (f : StoreFaults) (opts : FetchLogoOptions) (r : EnhancedLogoResult)
      (now : Nat) (s : CacheState),
      f.r2BlobPutFails = true →
      (fetchLogoStorePhase f opts r now s).2.r2 = s.r2 ∧
      (fetchLogoStorePhase f opts r now s).2.kv = s.kv) ∧
    (∀ (f : StoreFaults) (opts : FetchLogoOptions) (r : EnhancedLogoResult)
      (now : Nat) (s : CacheState) (bytes : Bytes),
      f.r2BlobPutFails = false → f.r2MetaPutFails = false → f.kvPutFails = true →
      r.success = true → jsTruthyS r.logoUrl = true → r.logoData = some bytes →
      opts.hasR2 = true →
      (jsTruthyS opts.domain = true ∨
        (jsTruthyS opts.domain = false ∧ jsTruthyS opts.companyName = true)) →
      (fetchLogoStorePhase f opts r now s).1.success = true ∧
      (fetchLogoStorePhase f opts r now s).1.fromCache = some false ∧
      (fetchLogoStorePhase f opts r now s).1.metadata.isSome = true ∧
      (fetchLogoStorePhase f opts r now s).2.kv = s.kv ∧
      ∃ lk, generateLogoKey opts.domain opts.companyName (some opts.format)
          (if jsTruthyN opts.size then opts.size else none) = some lk ∧
        (fetchLogoStorePhase f opts r now s).2.r2 lk = some (R2Value.blob bytes)) := by
  refine ⟨storeLogoInR2_blobFault, ?_, ?_, ?_, ?_⟩
  · intro f r2 logo m hst
    unfold storeLogoInR2 at hst ⊢
    split at hst
    · rename_i lk mk hlk hmk
      split at hst
      · exact absurd hst (by simp)
      · split at hst
        · exact absurd hst (by simp)
        · rename_i hb hm
          have hne : lk ≠ mk := generateKeys_ne hlk hmk
          refine ⟨lk, mk, hlk, hmk, ?_⟩
          simp [hb, hm, mapPut, hne]
    · exact absurd hst (by simp)
  · intro f r2 logo m lk hb hm hlk hmk
    obtain ⟨mk, hmk⟩ := hmk
    unfold storeLogoInR2
    rw [hlk, hmk]
    simp [hb, hm]
  · intro f opts r now s hb
    unfold fetchLogoStorePhase
    split
    · exact ⟨rfl, rfl⟩
    · split
      · split
        · simp [storeLogoInR2_blobFault _ _ _ _ hb]
        · exact ⟨rfl, rfl⟩
      · exact ⟨rfl, rfl⟩
  · intro f opts r now s bytes hb hm hk hsucc hurl hdata hr htr
    obtain ⟨lk, hlk⟩ := generateLogoKey_some_of_truthy (some opts.format)
      (if jsTruthyN opts.size then opts.size else none) htr
    obtain ⟨mk, hmk⟩ := generateMetadataKey_some_of_truthy htr
    have hne : lk ≠ mk := generateKeys_ne hlk hmk
    refine ⟨?_, ?_, ?_, ?_, lk, hlk, ?_⟩
    · simp [fetchLogoStorePhase, hsucc, hurl, hdata, hr, storeLogoInR2,
        storeMetadataInKV, hlk, hmk, hb, hm, hk, mapPut, hne]
    · simp [fetchLogoStorePhase, hsucc, hurl, hdata, hr, storeLogoInR2,
        storeMetadataInKV, hlk, hmk, hb, hm, hk, mapPut, hne]
    · simp [fetchLogoStorePhase, hsucc, hurl, hdata, hr, storeLogoInR2,
        storeMetadataInKV, hlk, hmk, hb, hm, hk, mapPut, hne]
    · simp [fetchLogoStorePhase, hsucc, hurl, hdata, hr, storeLogoInR2,
        storeMetadataInKV, hlk, hmk, hb, hm, hk, mapPut, hne]
      intro _
      split <;> rfl
    · simp [fetchLogoStorePhase, hsucc, hurl, hdata, hr, storeLogoInR2,
        storeMetadataInKV, hlk, hmk, hb, hm, hk, mapPut, hne]

end Logo

namespace Logo

/-- Witness for C8 at a concrete input, on its fast-tier-failure part: with
only `kvPutFails` set, the store still succeeds, the durable tier holds the
blob, and the fast tier is untouched. -/
theorem storeLogo_ordering_and_fault_tolerance_witness :
    (fetchLogoStorePhase ⟨false, false, true⟩
        ⟨false, true, true, 2592000, some "acme.com", none, "png", none⟩
        ⟨true, "getlogo.dev", some "https://x/y.png", none, some 50, some [9],
          some 1, none, none⟩ 1000
        ⟨fun _ => none, fun _ => none⟩).1.success = true ∧
    (fetchLogoStorePhase ⟨false, false, true⟩
        ⟨false, true, true, 2592000, some "acme.com", none, "png", none⟩
        ⟨true, "getlogo.dev", some "https://x/y.png", none, some 50, some [9],
          some 1, none, none⟩ 1000
        ⟨fun _ => none, fun _ => none⟩).1.fromCache = some false ∧
    (fetchLogoStorePhase ⟨false, false, true⟩
        ⟨false, true, true, 2592000, some "acme.com", none, "png", none⟩
        ⟨true, "getlogo.dev", some "https://x/y.png", none, some 50, some [9],
          some 1, none, none⟩ 1000
        ⟨fun _ => none, fun _ => none⟩).1.metadata.isSome = true ∧
    (fetchLogoStorePhase ⟨false, false, true⟩
        ⟨false, true, true, 2592000, some "acme.com", none, "png", none⟩
        ⟨true, "getlogo.dev", some "https://x/y.png", none, some 50, some [9],
          some 1, none, none⟩ 1000
        ⟨fun _ => none, fun _ => none⟩).2.kv
      = (⟨fun _ => none, fun _ => none⟩ : CacheState).kv ∧
    ∃ lk, generateLogoKey (some "acme.com") none (some "png")
        (if jsTruthyN none then none else none) = some lk ∧
      (fetchLogoStorePhase ⟨false, false, true⟩
          ⟨false, true, true, 2592000, some "acme.com", none, "png", none⟩
          ⟨true, "getlogo.dev", some "https://x/y.png", none, some 50, some [9],
            some 1, none, none⟩ 1000
          ⟨fun _ => none, fun _ => none⟩).2.r2 lk = some (R2Value.blob [9]) :=
  storeLogo_ordering_and_fault_tolerance.2.2.2.2 ⟨false, false, true⟩
    ⟨false, true, true, 2592000, some "acme.com", none, "png", none⟩
    ⟨true, "getlogo.dev", some "https://x/y.png", none, some 50, some [9],
      some 1, none, none⟩ 1000
    ⟨fun _ => none, fun _ => none⟩ [9]
    rfl rfl rfl rfl (by decide) rfl rfl (Or.inl (by decide))

end Logo
